import Mathlib

/-!
Shallow embedding of the PDF-rendering core of rfd-api, taken from
src/rfd-processor/src/content/mod.rs. Filesystem and collaborator effects
(environment temp dir, GitHub image listing, base64 decoding, the external
asciidoctor conversion, directory removal) are modelled by explicit state
passing over a small filesystem model plus an environment record holding the
outcome of each external call in one execution trace.
-/

/-- Bytes of a decoded file, modelled as a list of naturals. -/
abbrev Bytes := List Nat

/-- Decidable equality for Except results, used to evaluate the model on
concrete traces. -/
instance instDecEqExcept {ε α : Type} [DecidableEq ε] [DecidableEq α] :
    DecidableEq (Except ε α) := fun x y =>
  match x, y with
  | Except.ok a, Except.ok b =>
    if h : a = b then Decidable.isTrue (by rw [h])
    else Decidable.isFalse (by intro hc; injection hc; contradiction)
  | Except.ok _, Except.error _ =>
    Decidable.isFalse (by intro hc; exact Except.noConfusion hc)
  | Except.error _, Except.ok _ =>
    Decidable.isFalse (by intro hc; exact Except.noConfusion hc)
  | Except.error e, Except.error f =>
    if h : e = f then Decidable.isTrue (by rw [h])
    else Decidable.isFalse (by intro hc; injection hc; contradiction)

/-- Embedding of RfdContentError (content/mod.rs lines 29-45). Payloads of
external error types (DecodeError, GitHubError, Utf8Error, io::Error,
FileIoError, JoinError) are modelled as numeric codes. -/
inductive RfdContentError where
  | Decode (e : Nat)
  | GitHub (e : Nat)
  | InvalidContent (e : Nat)
  | Io (e : Nat)
  | File (e : Nat)
  | ParserFailed
  | TaskFailure (e : Nat)
deriving DecidableEq

/-- Embedding of RfdOutputError (content/mod.rs lines 285-297). -/
inductive RfdOutputError where
  | Command (e : Nat)
  | ContentFailure (e : RfdContentError)
  | File (e : Nat)
  | FormatNotSupported
  | Io (e : Nat)
deriving DecidableEq

/-- Attribute updates exposed by the RfdAttributes impl (content/mod.rs lines
206-262): update_state, update_discussion and update_labels. -/
inductive AttrUpdate where
  | state (v : String)
  | discussion (v : String)
  | labels (v : String)
deriving DecidableEq

/-- Modelled from the spec: rfd_data::content::RfdAsciidoc lives in the
rfd-data crate, which is not under src/. Per spec §3 invariant (2) and §4.1,
it holds the original unparsed text, raw text is never mutated in place, and
attribute updates produce a new in-memory representation materialized only on
serialization; so the model keeps the original text plus the recorded
updates. -/
structure RfdAsciidoc where
  content : String
  updates : List AttrUpdate
deriving DecidableEq

/-- Modelled from the spec: rfd_data::content::RfdMarkdown, same modelling as
RfdAsciidoc. -/
structure RfdMarkdown where
  content : String
  updates : List AttrUpdate
deriving DecidableEq

/-- Embedding of RfdContent (content/mod.rs lines 53-57). -/
inductive RfdContent where
  | Asciidoc (adoc : RfdAsciidoc)
  | Markdown (md : RfdMarkdown)
deriving DecidableEq

/-- Uuids are modelled by their string form (the code only uses
render_id.to_string()). -/
abbrev Uuid := String

/-- Embedding of RenderableRfd (content/mod.rs lines 47-51). -/
structure RenderableRfd where
  content : RfdContent
  render_id : Uuid
deriving DecidableEq

/-- Modelled from the spec: Uuid::new_v4() draws a fresh random v4 uuid; the
spec (§3 invariant 1) relies on render ids being pairwise distinct across
constructions, so the generator is modelled as a supply of pairwise-distinct
identifier strings threaded through each construction. -/
structure UuidGen where
  counter : Nat

/-- Draw a fresh identifier from the supply. Successive draws yield strings of
strictly increasing length, hence pairwise distinct. -/
def UuidGen.fresh (g : UuidGen) : Uuid × UuidGen :=
  (String.mk (List.replicate g.counter 'u'), ⟨g.counter + 1⟩)

/-- Modelled from the spec: RfdAsciidoc::new stores the caller-supplied text
with no updates recorded. -/
def RfdAsciidoc.new (content : String) : RfdAsciidoc := ⟨content, []⟩

/-- Modelled from the spec: RfdMarkdown::new stores the caller-supplied text
with no updates recorded. -/
def RfdMarkdown.new (content : String) : RfdMarkdown := ⟨content, []⟩

/-- Embedding of RenderableRfd::new_asciidoc (content/mod.rs lines 61-69),
with the uuid supply made explicit. -/
def RenderableRfd.new_asciidoc (content : String) (g : UuidGen) :
    RenderableRfd × UuidGen :=
  let fresh := g.fresh
  (⟨RfdContent.Asciidoc (RfdAsciidoc.new content), fresh.1⟩, fresh.2)

/-- Embedding of RenderableRfd::new_markdown (content/mod.rs lines 72-80),
with the uuid supply made explicit. -/
def RenderableRfd.new_markdown (content : String) (g : UuidGen) :
    RenderableRfd × UuidGen :=
  let fresh := g.fresh
  (⟨RfdContent.Markdown (RfdMarkdown.new content), fresh.1⟩, fresh.2)

/-- Modelled from the spec: RfdAsciidoc::raw returns the original unparsed
source, unchanged by any attribute update (spec §4.1). -/
def RfdAsciidoc.raw (a : RfdAsciidoc) : String := a.content

/-- Modelled from the spec: RfdMarkdown::raw, as for RfdAsciidoc. -/
def RfdMarkdown.raw (m : RfdMarkdown) : String := m.content

/-- Embedding of RenderableRfd::raw (content/mod.rs lines 83-88). -/
def RenderableRfd.raw (rfd : RenderableRfd) : String :=
  match rfd.content with
  | RfdContent.Asciidoc adoc => adoc.raw
  | RfdContent.Markdown md => md.raw

/-- Modelled from the spec: the dialect-specific serialization of one recorded
attribute update into the text is out of scope (§1 excludes the markup
grammar), so it is a parameter `ser`; materialization folds the updates over
the original text (§3 invariant 2). -/
def materialize (ser : String → AttrUpdate → String) (content : String)
    (updates : List AttrUpdate) : String :=
  updates.foldl ser content

/-- Embedding of RenderableRfd::into_inner_content (content/mod.rs lines
115-120), returning the inner content with recorded updates materialized by
the dialect serializer `ser`. -/
def RenderableRfd.into_inner_content (ser : String → AttrUpdate → String)
    (rfd : RenderableRfd) : String :=
  match rfd.content with
  | RfdContent.Asciidoc adoc => materialize ser adoc.content adoc.updates
  | RfdContent.Markdown md => materialize ser md.content md.updates

/-- Modelled from the spec: RfdAsciidoc::update_state records the update. -/
def RfdAsciidoc.update_state (a : RfdAsciidoc) (v : String) : RfdAsciidoc :=
  { a with updates := a.updates ++ [AttrUpdate.state v] }

/-- Modelled from the spec: RfdAsciidoc::update_discussion records the
update. -/
def RfdAsciidoc.update_discussion (a : RfdAsciidoc) (v : String) : RfdAsciidoc :=
  { a with updates := a.updates ++ [AttrUpdate.discussion v] }

/-- Modelled from the spec: RfdAsciidoc::update_labels records the update. -/
def RfdAsciidoc.update_labels (a : RfdAsciidoc) (v : String) : RfdAsciidoc :=
  { a with updates := a.updates ++ [AttrUpdate.labels v] }

/-- Modelled from the spec: RfdMarkdown::update_state records the update. -/
def RfdMarkdown.update_state (m : RfdMarkdown) (v : String) : RfdMarkdown :=
  { m with updates := m.updates ++ [AttrUpdate.state v] }

/-- Modelled from the spec: RfdMarkdown::update_discussion records the
update. -/
def RfdMarkdown.update_discussion (m : RfdMarkdown) (v : String) : RfdMarkdown :=
  { m with updates := m.updates ++ [AttrUpdate.discussion v] }

/-- Modelled from the spec: RfdMarkdown::update_labels records the update. -/
def RfdMarkdown.update_labels (m : RfdMarkdown) (v : String) : RfdMarkdown :=
  { m with updates := m.updates ++ [AttrUpdate.labels v] }

/-- Embedding of the RfdAttributes::update_state dispatch for RenderableRfd
(content/mod.rs lines 221-226). -/
def RenderableRfd.update_state (rfd : RenderableRfd) (v : String) : RenderableRfd :=
  match rfd.content with
  | RfdContent.Asciidoc adoc => ⟨RfdContent.Asciidoc (adoc.update_state v), rfd.render_id⟩
  | RfdContent.Markdown md => ⟨RfdContent.Markdown (md.update_state v), rfd.render_id⟩

/-- Embedding of the RfdAttributes::update_discussion dispatch for
RenderableRfd (content/mod.rs lines 235-240). -/
def RenderableRfd.update_discussion (rfd : RenderableRfd) (v : String) : RenderableRfd :=
  match rfd.content with
  | RfdContent.Asciidoc adoc => ⟨RfdContent.Asciidoc (adoc.update_discussion v), rfd.render_id⟩
  | RfdContent.Markdown md => ⟨RfdContent.Markdown (md.update_discussion v), rfd.render_id⟩

/-- Embedding of the RfdAttributes::update_labels dispatch for RenderableRfd
(content/mod.rs lines 256-261). -/
def RenderableRfd.update_labels (rfd : RenderableRfd) (v : String) : RenderableRfd :=
  match rfd.content with
  | RfdContent.Asciidoc adoc => ⟨RfdContent.Asciidoc (adoc.update_labels v), rfd.render_id⟩
  | RfdContent.Markdown md => ⟨RfdContent.Markdown (md.update_labels v), rfd.render_id⟩

/-- An image descriptor as returned by the GitHub collaborator (spec §3,
ImageDescriptor): repository path plus base64-encoded content. -/
structure ImageDescriptor where
  path : String
  content : String
deriving DecidableEq

/-- Filesystem model: the set of existing directories and the written files
(path paired with decoded bytes). -/
structure Fs where
  dirs : List String
  files : List (String × Bytes)
deriving DecidableEq

/-- Embedding of RfdPdf (the output artifact wrapping the rendered bytes and
the RFD number; spec §3, OutputArtifact). -/
structure RfdPdf where
  contents : Bytes
  number : Nat
deriving DecidableEq

/-- Environment of one execution trace: the process temp dir, the outcome of
the single location.get_images call, the base64 decoder (crate util, not
under src/, so kept as a parameter), the outcome of the single external
RenderedPdf::render invocation and of the single remove_dir_all call. -/
structure Env where
  tempDir : String
  getImages : Except Nat (List ImageDescriptor)
  dec : String → Except Nat Bytes
  renderResult : Except RfdOutputError Bytes
  removeOk : Bool
  removeErr : Nat

/-- Rust str::trim_start_matches('/') on character lists. -/
def trimSlashes (s : List Char) : List Char :=
  s.dropWhile (fun c => c == '/')

/-- Fuelled scan implementing Rust str::replace(pat, "") on character lists:
remove every non-overlapping occurrence of pat, scanning left to right; an
empty pattern leaves the input unchanged (replacement is empty). -/
def removeAllAux : Nat → List Char → List Char → List Char
  | 0, _, _ => []
  | _ + 1, _, [] => []
  | fuel + 1, pat, c :: rest =>
    if !pat.isEmpty && pat.isPrefixOf (c :: rest) then
      removeAllAux fuel pat (rest.drop (pat.length - 1))
    else
      c :: removeAllAux fuel pat rest

/-- Rust str::replace(pat, "") on character lists. -/
def removeAll (pat s : List Char) : List Char :=
  removeAllAux s.length pat s

/-- Checks whether pat occurs as a contiguous sublist of s. -/
def containsSub (pat : List Char) : List Char → Bool
  | [] => pat.isEmpty
  | c :: rest => pat.isPrefixOf (c :: rest) || containsSub pat rest

/-- Modelled from the spec: RfdNumber::repo_path lives in the rfd-data crate,
not under src/; the spec's staging example (§8) uses document directory
"/7/" for document number 7, so the directory is "/" ++ number ++ "/". -/
def repo_path (number : Nat) : String :=
  "/" ++ toString number ++ "/"

/-- Destination path computed for one image by download_images
(content/mod.rs lines 163-168): the workspace path joined with
image.path.replace(dir.trim_start_matches('/'), "").trim_start_matches('/'). -/
def image_dest_path (storage_path dir imgPath : String) : String :=
  storage_path ++ "/" ++
    String.mk (trimSlashes (removeAll (trimSlashes dir.data) imgPath.data))

/-- Formalisation of the claim C4 wording (spec §4.3): the destination is the
workspace path joined with the image's repository path after stripping the
document directory as a leading piece, trimming leading separators on both
sides before the comparison. -/
def image_dest_path_spec (storage_path dir imgPath : String) : String :=
  let d := trimSlashes dir.data
  let p := trimSlashes imgPath.data
  let stripped := if d.isPrefixOf p then p.drop d.length else p
  storage_path ++ "/" ++ String.mk (trimSlashes stripped)

/-- The workspace path string built by tmp_path (content/mod.rs lines
181-183): the process temp dir extended by the fixed "rfd-render/" subfolder
and the render id. -/
def RenderableRfd.tmp_path_str (rfd : RenderableRfd) (env : Env) : String :=
  env.tempDir ++ "/rfd-render/" ++ rfd.render_id

/-- Model of std::fs::create_dir_all: succeeds (idempotently) unless a file
already occupies the path; on success the directory exists afterwards. -/
def Fs.create_dir_all (fs : Fs) (p : String) : Except RfdContentError Unit × Fs :=
  if p ∈ fs.files.map Prod.fst then
    (Except.error (RfdContentError.Io 0), fs)
  else if p ∈ fs.dirs then
    (Except.ok (), fs)
  else
    (Except.ok (), { fs with dirs := p :: fs.dirs })

/-- Embedding of RenderableRfd::tmp_path (content/mod.rs lines 180-189):
build the workspace path, ensure the directory exists, return the path. -/
def RenderableRfd.tmp_path (rfd : RenderableRfd) (env : Env) (fs : Fs) :
    Except RfdContentError String × Fs :=
  let path := rfd.tmp_path_str env
  match fs.create_dir_all path with
  | (Except.ok _, fs') => (Except.ok path, fs')
  | (Except.error e, fs') => (Except.error e, fs')

/-- Modelled from the spec: util::write_file (not under src/) writes the
decoded bytes at the given path, creating parent directories as needed
(spec §4.3); an existing file at the path is overwritten. -/
def Fs.write_file (fs : Fs) (p : String) (b : Bytes) : Fs :=
  { fs with files := (p, b) :: fs.files.filter (fun q => q.1 != p) }

/-- Embedding of the staging loop of download_images (content/mod.rs lines
162-174): for each image compute the destination path, decode the base64
content with the decoder `dec` (util::decode_base64, not under src/), and
write the bytes; a decode failure aborts the loop. -/
def stage_images (dec : String → Except Nat Bytes) (storage_path dir : String) :
    Fs → List ImageDescriptor → Except RfdContentError Unit × Fs
  | fs, [] => (Except.ok (), fs)
  | fs, image :: rest =>
    match dec image.content with
    | Except.error e => (Except.error (RfdContentError.Decode e), fs)
    | Except.ok bytes =>
      stage_images dec storage_path dir
        (fs.write_file (image_dest_path storage_path dir image.path) bytes) rest

/-- Embedding of RenderableRfd::download_images (content/mod.rs lines
151-177): compute the document directory and the workspace path, list the
images at the location, then stage each image. -/
def RenderableRfd.download_images (rfd : RenderableRfd) (env : Env)
    (number : Nat) (fs : Fs) : Except RfdContentError Unit × Fs :=
  let dir := repo_path number
  match rfd.tmp_path env fs with
  | (Except.error e, fs1) => (Except.error e, fs1)
  | (Except.ok storage_path, fs1) =>
    match env.getImages with
    | Except.error e => (Except.error (RfdContentError.GitHub e), fs1)
    | Except.ok images => stage_images env.dec storage_path dir fs1 images

/-- Model of std::fs::remove_dir_all: on success removes the directory and
everything beneath it; its failure outcome is fixed by the trace. -/
def Fs.remove_dir_all (env : Env) (fs : Fs) (p : String) :
    Except RfdContentError Unit × Fs :=
  if env.removeOk then
    (Except.ok (),
      { dirs := fs.dirs.filter (fun d => !(d == p || (p ++ "/").isPrefixOf d)),
        files := fs.files.filter (fun q => !((p ++ "/").isPrefixOf q.1)) })
  else
    (Except.error (RfdContentError.Io env.removeErr), fs)

/-- Embedding of RenderableRfd::cleanup_tmp_path (content/mod.rs lines
193-203): recompute the workspace path (which re-creates the directory), and
if it exists as a directory remove it recursively; a removal failure is
logged via tap_err and then propagated by the question-mark operator. -/
def RenderableRfd.cleanup_tmp_path (rfd : RenderableRfd) (env : Env) (fs : Fs) :
    Except RfdContentError Unit × Fs :=
  match rfd.tmp_path env fs with
  | (Except.error e, fs1) => (Except.error e, fs1)
  | (Except.ok storage_path, fs1) =>
    if storage_path ∈ fs1.dirs then
      Fs.remove_dir_all env fs1 storage_path
    else
      (Except.ok (), fs1)

/-- Embedding of RenderableRfd::to_pdf (content/mod.rs lines 124-146): for
Asciidoc content download the images, render via the external conversion at
the workspace path, clean up the workspace, and wrap the bytes with the RFD
number; for Markdown fail immediately with FormatNotSupported. -/
def RenderableRfd.to_pdf (rfd : RenderableRfd) (env : Env) (number : Nat)
    (fs : Fs) : Except RfdOutputError RfdPdf × Fs :=
  match rfd.content with
  | RfdContent.Asciidoc _ =>
    match rfd.download_images env number fs with
    | (Except.error e, fs1) => (Except.error (RfdOutputError.ContentFailure e), fs1)
    | (Except.ok _, fs1) =>
      match rfd.tmp_path env fs1 with
      | (Except.error e, fs2) => (Except.error (RfdOutputError.ContentFailure e), fs2)
      | (Except.ok _, fs2) =>
        match env.renderResult with
        | Except.error e => (Except.error e, fs2)
        | Except.ok pdf =>
          match rfd.cleanup_tmp_path env fs2 with
          | (Except.error e, fs3) => (Except.error (RfdOutputError.ContentFailure e), fs3)
          | (Except.ok _, fs3) => (Except.ok ⟨pdf, number⟩, fs3)
  | RfdContent.Markdown _ => (Except.error RfdOutputError.FormatNotSupported, fs)

/-- Application of one recorded attribute update through the RenderableRfd
dispatch functions. -/
def RenderableRfd.apply_update (rfd : RenderableRfd) : AttrUpdate → RenderableRfd
  | AttrUpdate.state v => rfd.update_state v
  | AttrUpdate.discussion v => rfd.update_discussion v
  | AttrUpdate.labels v => rfd.update_labels v

/-- Application of a sequence of attribute updates, left to right. -/
def RenderableRfd.apply_updates (rfd : RenderableRfd) : List AttrUpdate → RenderableRfd
  | [] => rfd
  | u :: us => (rfd.apply_update u).apply_updates us

lemma raw_apply_update (rfd : RenderableRfd) (u : AttrUpdate) :
    (rfd.apply_update u).raw = rfd.raw := by
  rcases rfd with ⟨c, id⟩
  cases c <;> cases u <;> rfl

lemma raw_apply_updates (us : List AttrUpdate) (rfd : RenderableRfd) :
    (rfd.apply_updates us).raw = rfd.raw := by
  induction us generalizing rfd with
  | nil => rfl
  | cons u us ih =>
    rw [RenderableRfd.apply_updates, ih, raw_apply_update]

/-- C8: for every RenderableRfd and every sequence of attribute updates
(update_state, update_discussion, update_labels), raw() afterwards returns
the original unparsed source text supplied at construction, unchanged by any
of the updates. -/
theorem c8_raw_unchanged_by_updates (txt : String) (g : UuidGen)
    (us : List AttrUpdate) :
    (((RenderableRfd.new_asciidoc txt g).1.apply_updates us).raw = txt)
    ∧ (((RenderableRfd.new_markdown txt g).1.apply_updates us).raw = txt) := by
  constructor <;> rw [raw_apply_updates] <;> rfl

/-- C9: for every input text and either dialect constructor,
into_inner_content() on the freshly constructed instance, with no attribute
updates applied, returns exactly the input text, whatever the dialect
serializer is. -/
theorem c9_into_inner_content_round_trip (ser : String → AttrUpdate → String)
    (txt : String) (g : UuidGen) :
    ((RenderableRfd.new_asciidoc txt g).1.into_inner_content ser = txt)
    ∧ ((RenderableRfd.new_markdown txt g).1.into_inner_content ser = txt) :=
  ⟨rfl, rfl⟩

/-- C2: for every Markdown-backed RenderableRfd and every client, number and
location, to_pdf returns FormatNotSupported and the filesystem state is
returned untouched: no image listing, workspace creation, file write or
conversion outcome is consulted. -/
theorem c2_markdown_to_pdf_fails_without_io (md : RfdMarkdown) (id : Uuid)
    (env : Env) (number : Nat) (fs : Fs) :
    RenderableRfd.to_pdf ⟨RfdContent.Markdown md, id⟩ env number fs
      = (Except.error RfdOutputError.FormatNotSupported, fs) := rfl

/-- Dispatch over the two constructors, true selecting new_asciidoc. -/
def construct (dialect : Bool) (txt : String) (g : UuidGen) :
    RenderableRfd × UuidGen :=
  if dialect then RenderableRfd.new_asciidoc txt g
  else RenderableRfd.new_markdown txt g

lemma construct_render_id (b : Bool) (txt : String) (g : UuidGen) :
    (construct b txt g).1.render_id = String.mk (List.replicate g.counter 'u') := by
  cases b <;> rfl

lemma construct_counter (b : Bool) (txt : String) (g : UuidGen) :
    (construct b txt g).2.counter = g.counter + 1 := by
  cases b <;> rfl

/-- C7: any two RenderableRfd instances constructed independently via
new_asciidoc or new_markdown, even from identical input text, have distinct
render_id values and therefore distinct derived workspace paths. -/
theorem c7_workspace_isolation (b1 b2 : Bool) (t1 t2 : String) (g : UuidGen)
    (env : Env) :
    (construct b1 t1 g).1.render_id
        ≠ (construct b2 t2 (construct b1 t1 g).2).1.render_id
    ∧ (construct b1 t1 g).1.tmp_path_str env
        ≠ (construct b2 t2 (construct b1 t1 g).2).1.tmp_path_str env := by
  constructor
  · intro h
    rw [construct_render_id, construct_render_id, construct_counter] at h
    have hlen := congrArg String.length h
    simp only [String.length_mk, List.length_replicate] at hlen
    omega
  · intro h
    unfold RenderableRfd.tmp_path_str at h
    rw [construct_render_id, construct_render_id, construct_counter] at h
    have hlen := congrArg String.length h
    simp only [String.length_append, String.length_mk, List.length_replicate] at hlen
    omega

/-- C6: tmp_path is idempotent: when a call succeeds it returns the
process-wide temporary directory extended by the fixed subfolder
"rfd-render" and the instance's render_id, and a second call returns the
same path, leaves the state unchanged, and does not fail on the
already-existing directory. -/
theorem c6_tmp_path_idempotent (rfd : RenderableRfd) (env : Env) (fs fs1 : Fs)
    (p : String) (h : rfd.tmp_path env fs = (Except.ok p, fs1)) :
    p = env.tempDir ++ "/rfd-render/" ++ rfd.render_id
    ∧ rfd.tmp_path env fs1 = (Except.ok p, fs1) := by
  unfold RenderableRfd.tmp_path Fs.create_dir_all at h
  by_cases hf : rfd.tmp_path_str env ∈ fs.files.map Prod.fst
  · simp [hf] at h
  · by_cases hd : rfd.tmp_path_str env ∈ fs.dirs
    · simp [hf, hd] at h
      obtain ⟨hp, hfs⟩ := h
      subst hp
      subst hfs
      exact ⟨rfl, by simp [RenderableRfd.tmp_path, Fs.create_dir_all, hf, hd]⟩
    · simp [hf, hd] at h
      obtain ⟨hp, hfs⟩ := h
      subst hp
      subst hfs
      refine ⟨rfl, ?_⟩
      have hf2 : rfd.tmp_path_str env ∉
          (Fs.mk (rfd.tmp_path_str env :: fs.dirs) fs.files).files.map Prod.fst := hf
      simp [RenderableRfd.tmp_path, Fs.create_dir_all, hf2]

lemma image_dest_path_ne (sp dir p : String) : image_dest_path sp dir p ≠ sp := by
  intro h
  have hlen := congrArg String.length h
  simp only [image_dest_path, String.length_append,
    show ("/" : String).length = 1 from rfl] at hlen
  omega

lemma write_file_dirs (fs : Fs) (p : String) (b : Bytes) :
    (fs.write_file p b).dirs = fs.dirs := rfl

lemma mem_write_file_files_fst (fs : Fs) (p q : String) (b : Bytes) :
    q ∈ (fs.write_file p b).files.map Prod.fst ↔ (q = p ∨ q ∈ fs.files.map Prod.fst) := by
  simp only [Fs.write_file, List.map_cons, List.mem_cons, List.mem_map,
    List.mem_filter, bne_iff_ne, ne_eq]
  constructor
  · rintro (rfl | ⟨x, ⟨hx, hxp⟩, rfl⟩)
    · exact Or.inl rfl
    · exact Or.inr ⟨x, hx, rfl⟩
  · rintro (rfl | ⟨x, hx, rfl⟩)
    · exact Or.inl rfl
    · by_cases hxp : x.1 = p
      · exact Or.inl hxp
      · exact Or.inr ⟨x, ⟨hx, hxp⟩, rfl⟩

lemma stage_images_inv (dec : String → Except Nat Bytes) (sp dir : String)
    (imgs : List ImageDescriptor) :
    ∀ fs : Fs, sp ∈ fs.dirs → sp ∉ fs.files.map Prod.fst →
      sp ∈ (stage_images dec sp dir fs imgs).2.dirs
      ∧ sp ∉ (stage_images dec sp dir fs imgs).2.files.map Prod.fst := by
  induction imgs with
  | nil => intro fs h1 h2; exact ⟨h1, h2⟩
  | cons img rest ih =>
    intro fs h1 h2
    cases hdec : dec img.content with
    | error e =>
      simp only [stage_images, hdec]
      exact ⟨h1, h2⟩
    | ok bytes =>
      simp only [stage_images, hdec]
      apply ih
      · exact h1
      · intro hmem
        rcases (mem_write_file_files_fst _ _ _ _).mp hmem with heq | hmem2
        · exact image_dest_path_ne sp dir img.path heq.symm
        · exact h2 hmem2

lemma tmp_path_ok (rfd : RenderableRfd) (env : Env) (fs fs' : Fs) (p : String)
    (h : rfd.tmp_path env fs = (Except.ok p, fs')) :
    p = rfd.tmp_path_str env ∧ fs'.files = fs.files
    ∧ rfd.tmp_path_str env ∈ fs'.dirs
    ∧ rfd.tmp_path_str env ∉ fs'.files.map Prod.fst := by
  unfold RenderableRfd.tmp_path Fs.create_dir_all at h
  by_cases hf : rfd.tmp_path_str env ∈ fs.files.map Prod.fst
  · simp [hf] at h
  · by_cases hd : rfd.tmp_path_str env ∈ fs.dirs
    · simp [hf, hd] at h
      obtain ⟨hp, hfs⟩ := h
      subst hp
      subst hfs
      exact ⟨rfl, rfl, hd, hf⟩
    · simp [hf, hd] at h
      obtain ⟨hp, hfs⟩ := h
      subst hp
      subst hfs
      exact ⟨rfl, rfl, List.mem_cons_self _ _, hf⟩

lemma download_images_ok (rfd : RenderableRfd) (env : Env) (number : Nat)
    (fs fs1 : Fs)
    (h : rfd.download_images env number fs = (Except.ok (), fs1)) :
    rfd.tmp_path env fs1 = (Except.ok (rfd.tmp_path_str env), fs1)
    ∧ rfd.tmp_path_str env ∈ fs1.dirs := by
  unfold RenderableRfd.download_images at h
  rcases htp : rfd.tmp_path env fs with ⟨res, fsA⟩
  rw [htp] at h
  cases res with
  | error e => simp at h
  | ok sp =>
    cases hgi : env.getImages with
    | error e => rw [hgi] at h; simp at h
    | ok images =>
      rw [hgi] at h
      obtain ⟨hp, _, hdirs, hfstn⟩ := tmp_path_ok rfd env fs fsA sp htp
      subst hp
      have hinv := stage_images_inv env.dec (rfd.tmp_path_str env)
        (repo_path number) images fsA hdirs hfstn
      have h2 := congrArg Prod.snd h
      simp only at h2
      rw [h2] at hinv
      refine ⟨?_, hinv.1⟩
      unfold RenderableRfd.tmp_path Fs.create_dir_all
      simp [hinv.1, hinv.2]

/-- C3: for an Asciidoc-backed RenderableRfd, a failure during image staging
or during the external PDF conversion is propagated immediately and cleanup
is skipped entirely: to_pdf returns with exactly the filesystem state of the
failure point (nothing is deleted), and in the conversion-failure case the
workspace directory is still present. -/
theorem c3_failure_skips_cleanup (a : RfdAsciidoc) (id : Uuid) (env : Env)
    (number : Nat) (fs : Fs) :
    (∀ e fs1,
      RenderableRfd.download_images ⟨RfdContent.Asciidoc a, id⟩ env number fs
          = (Except.error e, fs1) →
      RenderableRfd.to_pdf ⟨RfdContent.Asciidoc a, id⟩ env number fs
          = (Except.error (RfdOutputError.ContentFailure e), fs1))
    ∧ (∀ fs1 e,
      RenderableRfd.download_images ⟨RfdContent.Asciidoc a, id⟩ env number fs
          = (Except.ok (), fs1) →
      env.renderResult = Except.error e →
      RenderableRfd.to_pdf ⟨RfdContent.Asciidoc a, id⟩ env number fs
          = (Except.error e, fs1)
        ∧ RenderableRfd.tmp_path_str ⟨RfdContent.Asciidoc a, id⟩ env ∈ fs1.dirs) := by
  constructor
  · intro e fs1 h
    simp [RenderableRfd.to_pdf, h]
  · intro fs1 e h hr
    obtain ⟨htp, hdirs⟩ := download_images_ok _ env number fs fs1 h
    refine ⟨?_, hdirs⟩
    simp [RenderableRfd.to_pdf, h, htp, hr]

/-- C3 witness: a concrete image-listing failure is propagated by to_pdf with
the filesystem of the failure point (the freshly created workspace directory
is left in place). -/
theorem c3_witness :
    RenderableRfd.to_pdf ⟨RfdContent.Asciidoc (RfdAsciidoc.new "t"), "id"⟩
        ⟨"/tmp", Except.error 3, fun _ => Except.ok [], Except.ok [1], true, 0⟩ 7 ⟨[], []⟩
      = (Except.error (RfdOutputError.ContentFailure (RfdContentError.GitHub 3)),
         ⟨["/tmp/rfd-render/id"], []⟩) :=
  (c3_failure_skips_cleanup (RfdAsciidoc.new "t") "id"
      ⟨"/tmp", Except.error 3, fun _ => Except.ok [], Except.ok [1], true, 0⟩ 7 ⟨[], []⟩).1
    (RfdContentError.GitHub 3) ⟨["/tmp/rfd-render/id"], []⟩ (by decide)

/-- C1 counterexample: with images listed successfully, conversion succeeding
and directory removal failing, to_pdf returns an error instead of the
successful artifact, so a cleanup failure IS surfaced to the caller. -/
theorem c1_counterexample :
    (RenderableRfd.to_pdf ⟨RfdContent.Asciidoc (RfdAsciidoc.new "t"), "id"⟩
        ⟨"/tmp", Except.ok [], fun _ => Except.ok [], Except.ok [1, 2], false, 9⟩ 7
        ⟨[], []⟩).1
      = Except.error (RfdOutputError.ContentFailure (RfdContentError.Io 9)) := by
  decide

/-- C1 (amended): a workspace cleanup failure on the success path is logged
but propagated: whenever staging and conversion succeed and directory removal
fails, to_pdf surfaces the cleanup io error wrapped as ContentFailure instead
of returning the artifact, and the filesystem is left as staged. -/
theorem c1_cleanup_failure_propagates (a : RfdAsciidoc) (id : Uuid) (env : Env)
    (number : Nat) (fs fs1 : Fs) (pdf : Bytes)
    (hdl : RenderableRfd.download_images ⟨RfdContent.Asciidoc a, id⟩ env number fs
      = (Except.ok (), fs1))
    (hrender : env.renderResult = Except.ok pdf)
    (hrm : env.removeOk = false) :
    RenderableRfd.to_pdf ⟨RfdContent.Asciidoc a, id⟩ env number fs
      = (Except.error (RfdOutputError.ContentFailure (RfdContentError.Io env.removeErr)),
         fs1) := by
  obtain ⟨htp, hdirs⟩ := download_images_ok _ env number fs fs1 hdl
  simp [RenderableRfd.to_pdf, hdl, htp, hrender,
    RenderableRfd.cleanup_tmp_path, hdirs, Fs.remove_dir_all, hrm]

/-- C1 witness: the amended behaviour at a concrete trace. -/
theorem c1_witness :
    RenderableRfd.to_pdf ⟨RfdContent.Asciidoc (RfdAsciidoc.new "t"), "id"⟩
        ⟨"/tmp", Except.ok [], fun _ => Except.ok [], Except.ok [1, 2], false, 9⟩ 7
        ⟨[], []⟩
      = (Except.error (RfdOutputError.ContentFailure (RfdContentError.Io 9)),
         ⟨["/tmp/rfd-render/id"], []⟩) :=
  c1_cleanup_failure_propagates (RfdAsciidoc.new "t") "id"
    ⟨"/tmp", Except.ok [], fun _ => Except.ok [], Except.ok [1, 2], false, 9⟩ 7
    ⟨[], []⟩ ⟨["/tmp/rfd-render/id"], []⟩ [1, 2] (by decide) rfl rfl

/-- C10: for an Asciidoc-backed RenderableRfd, a successful to_pdf implies
the workspace directory derived from its render_id no longer exists when the
call returns, and the returned artifact carries the document number passed to
the call. -/
theorem c10_success_implies_cleanup (a : RfdAsciidoc) (id : Uuid) (env : Env)
    (number : Nat) (fs fs' : Fs) (art : RfdPdf)
    (h : RenderableRfd.to_pdf ⟨RfdContent.Asciidoc a, id⟩ env number fs
      = (Except.ok art, fs')) :
    RenderableRfd.tmp_path_str ⟨RfdContent.Asciidoc a, id⟩ env ∉ fs'.dirs
    ∧ art.number = number := by
  rcases hdl : RenderableRfd.download_images ⟨RfdContent.Asciidoc a, id⟩ env number fs
    with ⟨res1, fs1⟩
  cases res1 with
  | error e => simp [RenderableRfd.to_pdf, hdl] at h
  | ok u =>
    cases u
    obtain ⟨htp, hdirs⟩ := download_images_ok _ env number fs fs1 hdl
    cases hr : env.renderResult with
    | error e => simp [RenderableRfd.to_pdf, hdl, htp, hr] at h
    | ok pdf =>
      cases hrm : env.removeOk with
      | false =>
        simp [RenderableRfd.to_pdf, hdl, htp, hr,
          RenderableRfd.cleanup_tmp_path, hdirs, Fs.remove_dir_all, hrm] at h
      | true =>
        simp [RenderableRfd.to_pdf, hdl, htp, hr,
          RenderableRfd.cleanup_tmp_path, hdirs, Fs.remove_dir_all, hrm] at h
        obtain ⟨hart, hfs⟩ := h
        subst hart
        rw [← hfs]
        refine ⟨?_, rfl⟩
        intro hmem
        rw [List.mem_filter] at hmem
        simp at hmem

/-- C10 witness: a concrete successful render leaves no workspace directory
behind and tags the artifact with the requested number. -/
theorem c10_witness :
    RenderableRfd.tmp_path_str ⟨RfdContent.Asciidoc (RfdAsciidoc.new "t"), "id"⟩
        ⟨"/tmp", Except.ok [], fun _ => Except.ok [], Except.ok [9], true, 0⟩
      ∉ (Fs.mk [] []).dirs
    ∧ (RfdPdf.mk [9] 7).number = 7 :=
  c10_success_implies_cleanup (RfdAsciidoc.new "t") "id"
    ⟨"/tmp", Except.ok [], fun _ => Except.ok [], Except.ok [9], true, 0⟩ 7
    ⟨[], []⟩ ⟨[], []⟩ ⟨[9], 7⟩ (by decide)

/-- C6 witness: idempotence of tmp_path at a concrete state whose first call
succeeded. -/
theorem c6_witness :
    "/tmp/rfd-render/id" = "/tmp" ++ "/rfd-render/" ++ "id"
    ∧ RenderableRfd.tmp_path ⟨RfdContent.Asciidoc (RfdAsciidoc.new "t"), "id"⟩
        ⟨"/tmp", Except.ok [], fun _ => Except.ok [], Except.ok [], true, 0⟩
        ⟨["/tmp/rfd-render/id"], []⟩
      = (Except.ok "/tmp/rfd-render/id", ⟨["/tmp/rfd-render/id"], []⟩) :=
  c6_tmp_path_idempotent ⟨RfdContent.Asciidoc (RfdAsciidoc.new "t"), "id"⟩
    ⟨"/tmp", Except.ok [], fun _ => Except.ok [], Except.ok [], true, 0⟩
    ⟨[], []⟩ ⟨["/tmp/rfd-render/id"], []⟩ "/tmp/rfd-render/id" (by decide)

/-- Filesystem reached after staging a list of images, each of whose decodes
succeeds (the error branch is never taken under that hypothesis). -/
def staged_fs (dec : String → Except Nat Bytes) (storage_path dir : String) :
    Fs → List ImageDescriptor → Fs
  | fs, [] => fs
  | fs, image :: rest =>
    match dec image.content with
    | Except.ok bytes =>
      staged_fs dec storage_path dir
        (fs.write_file (image_dest_path storage_path dir image.path) bytes) rest
    | Except.error _ => fs

lemma stage_images_decode_failure (dec : String → Except Nat Bytes)
    (sp dir : String) (bad : ImageDescriptor) (e : Nat)
    (hbad : dec bad.content = Except.error e) :
    ∀ pre : List ImageDescriptor,
      (∀ img ∈ pre, ∃ bs, dec img.content = Except.ok bs) →
      ∀ (fs : Fs) (post : List ImageDescriptor),
        stage_images dec sp dir fs (pre ++ bad :: post)
          = (Except.error (RfdContentError.Decode e), staged_fs dec sp dir fs pre) := by
  intro pre
  induction pre with
  | nil =>
    intro _ fs post
    simp only [List.nil_append, stage_images, hbad, staged_fs]
  | cons img rest ih =>
    intro hpre fs post
    obtain ⟨bs, hbs⟩ := hpre img (List.mem_cons_self _ _)
    simp only [List.cons_append, stage_images, hbs, staged_fs]
    exact ih (fun i hi => hpre i (List.mem_cons_of_mem _ hi)) _ post

lemma staged_fs_preserves_mem (dec : String → Except Nat Bytes)
    (sp dir q : String) :
    ∀ (l : List ImageDescriptor) (fs : Fs), q ∈ fs.files.map Prod.fst →
      q ∈ (staged_fs dec sp dir fs l).files.map Prod.fst := by
  intro l
  induction l with
  | nil => intro fs h; exact h
  | cons i rest ih =>
    intro fs h
    cases hdec : dec i.content with
    | error e =>
      simp only [staged_fs, hdec]
      exact h
    | ok bs =>
      simp only [staged_fs, hdec]
      exact ih _ ((mem_write_file_files_fst _ _ _ _).mpr (Or.inr h))

lemma staged_fs_mem (dec : String → Except Nat Bytes) (sp dir : String) :
    ∀ (pre : List ImageDescriptor) (fs : Fs),
      (∀ img ∈ pre, ∃ bs, dec img.content = Except.ok bs) →
      ∀ img ∈ pre, image_dest_path sp dir img.path
        ∈ (staged_fs dec sp dir fs pre).files.map Prod.fst := by
  intro pre
  induction pre with
  | nil => intro fs _ img h; cases h
  | cons i rest ih =>
    intro fs hpre img hmem
    obtain ⟨bs, hbs⟩ := hpre i (List.mem_cons_self _ _)
    simp only [staged_fs, hbs]
    rcases List.mem_cons.mp hmem with heq | hmem2
    · subst heq
      exact staged_fs_preserves_mem dec sp dir _ rest _
        ((mem_write_file_files_fst _ _ _ _).mpr (Or.inl rfl))
    · exact ih _ (fun j hj => hpre j (List.mem_cons_of_mem _ hj)) img hmem2

/-- C5: when the images listed for the call are pre ++ bad :: post, every
descriptor in pre decodes and bad fails to decode, download_images surfaces
the decode error and returns exactly the filesystem obtained by staging pre
(descriptors after bad are neither decoded nor written, for every post), and
each file staged for pre is still present on disk afterwards. -/
theorem c5_decode_failure_aborts_staging (a : RfdAsciidoc) (id : Uuid)
    (env : Env) (number : Nat) (fs fs1 : Fs)
    (pre post : List ImageDescriptor) (bad : ImageDescriptor) (e : Nat)
    (hbad : env.dec bad.content = Except.error e)
    (hpre : ∀ img ∈ pre, ∃ bs, env.dec img.content = Except.ok bs)
    (htp : RenderableRfd.tmp_path ⟨RfdContent.Asciidoc a, id⟩ env fs
      = (Except.ok (RenderableRfd.tmp_path_str ⟨RfdContent.Asciidoc a, id⟩ env), fs1)) :
    RenderableRfd.download_images ⟨RfdContent.Asciidoc a, id⟩
        { env with getImages := Except.ok (pre ++ bad :: post) } number fs
      = (Except.error (RfdContentError.Decode e),
          staged_fs env.dec (RenderableRfd.tmp_path_str ⟨RfdContent.Asciidoc a, id⟩ env)
            (repo_path number) fs1 pre)
    ∧ ∀ img ∈ pre,
        image_dest_path (RenderableRfd.tmp_path_str ⟨RfdContent.Asciidoc a, id⟩ env)
            (repo_path number) img.path
          ∈ (staged_fs env.dec (RenderableRfd.tmp_path_str ⟨RfdContent.Asciidoc a, id⟩ env)
              (repo_path number) fs1 pre).files.map Prod.fst := by
  constructor
  · have htp2 : RenderableRfd.tmp_path ⟨RfdContent.Asciidoc a, id⟩
        { env with getImages := Except.ok (pre ++ bad :: post) } fs
        = (Except.ok (RenderableRfd.tmp_path_str ⟨RfdContent.Asciidoc a, id⟩ env), fs1) := htp
    simp only [RenderableRfd.download_images, htp2]
    exact stage_images_decode_failure env.dec _ _ bad e hbad pre hpre fs1 post
  · exact staged_fs_mem env.dec _ _ pre fs1 hpre

/-- C5 witness: a concrete trace whose second descriptor has malformed
content: the call aborts with the decode error. -/
theorem c5_witness :
    (RenderableRfd.download_images ⟨RfdContent.Asciidoc (RfdAsciidoc.new "t"), "id"⟩
        ⟨"/tmp",
          Except.ok [⟨"/7/img/a.png", "good"⟩, ⟨"/7/img/b.png", "bad"⟩, ⟨"p", "good"⟩],
          fun s => if s = "bad" then Except.error 7 else Except.ok [1],
          Except.ok [], true, 0⟩ 7 ⟨[], []⟩).1
      = Except.error (RfdContentError.Decode 7) :=
  congrArg Prod.fst
    (c5_decode_failure_aborts_staging (RfdAsciidoc.new "t") "id"
        ⟨"/tmp", Except.ok [],
          fun s => if s = "bad" then Except.error 7 else Except.ok [1],
          Except.ok [], true, 0⟩ 7 ⟨[], []⟩ ⟨["/tmp/rfd-render/id"], []⟩
        [⟨"/7/img/a.png", "good"⟩] [⟨"p", "good"⟩] ⟨"/7/img/b.png", "bad"⟩ 7
        (by decide)
        (by
          intro img h
          rw [List.mem_singleton] at h
          subst h
          exact ⟨[1], by decide⟩)
        (by decide)).1

lemma removeAllAux_fuel (pat : List Char) :
    ∀ (f1 : Nat) (f2 : Nat) (s : List Char), s.length ≤ f1 → s.length ≤ f2 →
      removeAllAux f1 pat s = removeAllAux f2 pat s := by
  intro f1
  induction f1 with
  | zero =>
    intro f2 s h1 _
    have hs : s = [] := List.length_eq_zero.mp (Nat.le_zero.mp h1)
    subst hs
    cases f2 <;> rfl
  | succ f ih =>
    intro f2 s h1 h2
    cases s with
    | nil => cases f2 <;> rfl
    | cons c rest =>
      cases f2 with
      | zero => simp at h2
      | succ f2p =>
        simp only [removeAllAux]
        by_cases hcond : (!pat.isEmpty && pat.isPrefixOf (c :: rest)) = true
        · rw [if_pos hcond, if_pos hcond]
          have hd : (rest.drop (pat.length - 1)).length ≤ rest.length := by
            rw [List.length_drop]
            exact Nat.sub_le _ _
          exact ih f2p _ (Nat.le_trans hd (Nat.le_of_succ_le_succ h1))
            (Nat.le_trans hd (Nat.le_of_succ_le_succ h2))
        · rw [if_neg hcond, if_neg hcond]
          rw [ih f2p rest (Nat.le_of_succ_le_succ h1) (Nat.le_of_succ_le_succ h2)]

lemma removeAll_cons_match (pat : List Char) (c : Char) (rest : List Char)
    (hne : pat ≠ []) (hpre : pat.isPrefixOf (c :: rest) = true) :
    removeAll pat (c :: rest) = removeAll pat (rest.drop (pat.length - 1)) := by
  have hpe : pat.isEmpty = false := by
    cases pat with
    | nil => exact absurd rfl hne
    | cons p ps => rfl
  unfold removeAll
  simp only [List.length_cons, removeAllAux]
  rw [if_pos (by rw [hpe, hpre]; rfl)]
  have hd : (rest.drop (pat.length - 1)).length ≤ rest.length := by
    rw [List.length_drop]
    exact Nat.sub_le _ _
  exact removeAllAux_fuel pat rest.length _ _ hd le_rfl

lemma removeAll_cons_nomatch (pat : List Char) (c : Char) (rest : List Char)
    (hpre : pat.isPrefixOf (c :: rest) = false) :
    removeAll pat (c :: rest) = c :: removeAll pat rest := by
  unfold removeAll
  simp only [List.length_cons, removeAllAux]
  rw [if_neg (by rw [hpre, Bool.and_false]; exact Bool.false_ne_true)]

lemma removeAll_of_not_contains (pat : List Char) :
    ∀ s : List Char, containsSub pat s = false → removeAll pat s = s := by
  intro s
  induction s with
  | nil => intro _; rfl
  | cons c rest ih =>
    intro h
    rw [containsSub, Bool.or_eq_false_iff] at h
    rw [removeAll_cons_nomatch pat c rest h.1, ih h.2]

lemma isPrefixOf_append_self (d rest : List Char) :
    d.isPrefixOf (d ++ rest) = true := by
  induction d with
  | nil => cases rest <;> rfl
  | cons a tl ih => simp [List.isPrefixOf, ih]

lemma removeAll_append_self (d rest : List Char) (hne : d ≠ []) :
    removeAll d (d ++ rest) = removeAll d rest := by
  cases d with
  | nil => exact absurd rfl hne
  | cons c ds =>
    have hpre : (c :: ds).isPrefixOf (c :: (ds ++ rest)) = true :=
      isPrefixOf_append_self (c :: ds) rest
    rw [List.cons_append, removeAll_cons_match (c :: ds) c (ds ++ rest) hne hpre]
    have hlen : (c :: ds).length - 1 = ds.length := by simp
    rw [hlen, List.drop_left]

lemma removeAll_leading (pat : List Char) (p0 : Char) (ps : List Char)
    (hpat : pat = p0 :: ps) (hp0 : p0 ≠ '/') :
    ∀ lead : List Char, (∀ c ∈ lead, c = '/') →
      ∀ s : List Char, removeAll pat (lead ++ s) = lead ++ removeAll pat s := by
  intro lead
  induction lead with
  | nil => intro _ s; rfl
  | cons c tl ih =>
    intro hlead s
    have hc : c = '/' := hlead c (List.mem_cons_self _ _)
    have hb : (p0 == '/') = false := beq_eq_false_iff_ne.mpr hp0
    have hpre : pat.isPrefixOf (c :: (tl ++ s)) = false := by
      subst hpat
      subst hc
      simp [List.isPrefixOf, hb]
    rw [List.cons_append, removeAll_cons_nomatch pat c (tl ++ s) hpre,
      ih (fun d hd => hlead d (List.mem_cons_of_mem _ hd)) s, List.cons_append]

lemma trimSlashes_cons_slash (tl : List Char) :
    trimSlashes ('/' :: tl) = trimSlashes tl := by
  simp [trimSlashes, List.dropWhile_cons]

lemma trimSlashes_cons_ne (a : Char) (tl : List Char) (ha : a ≠ '/') :
    trimSlashes (a :: tl) = a :: tl := by
  simp [trimSlashes, List.dropWhile_cons, ha]

lemma trimSlashes_append_slashes (s : List Char) :
    ∀ lead : List Char, (∀ c ∈ lead, c = '/') →
      trimSlashes (lead ++ s) = trimSlashes s := by
  intro lead
  induction lead with
  | nil => intro _; rfl
  | cons c tl ih =>
    intro hlead
    have hc : c = '/' := hlead c (List.mem_cons_self _ _)
    subst hc
    rw [List.cons_append, trimSlashes_cons_slash,
      ih (fun d hd => hlead d (List.mem_cons_of_mem _ hd))]

lemma trimSlashes_head_ne (s : List Char) :
    ∀ (c : Char) (cs : List Char), trimSlashes s = c :: cs → c ≠ '/' := by
  induction s with
  | nil =>
    intro c cs h
    exact List.noConfusion h
  | cons a tl ih =>
    intro c cs h
    by_cases ha : a = '/'
    · subst ha
      rw [trimSlashes_cons_slash] at h
      exact ih c cs h
    · rw [trimSlashes_cons_ne a tl ha] at h
      injection h with h1 _
      rw [← h1]
      exact ha

lemma takeWhile_slash_all (s : List Char) :
    ∀ c ∈ s.takeWhile (fun c => c == '/'), c = '/' := by
  induction s with
  | nil => intro c hc; cases hc
  | cons a tl ih =>
    intro c hc
    rw [List.takeWhile_cons] at hc
    by_cases ha : (a == '/') = true
    · simp only [ha, if_true] at hc
      rcases List.mem_cons.mp hc with h1 | h2
      · rw [h1]
        exact eq_of_beq ha
      · exact ih c h2
    · simp [ha] at hc

/-- C4 (amended): download_images computes each staged destination by
removing EVERY occurrence of the slash-trimmed document directory from the
descriptor path and then trimming leading slashes (Rust str::replace with
empty replacement), not by stripping only a leading prefix; whenever the
trimmed directory occurs in the descriptor path solely as its leading piece,
this coincides with the prefix-stripping destination described by the spec,
landing at the workspace joined with the remainder. -/
theorem c4_dest_path (sp dir imgPath : String) (d rest : List Char)
    (hd : trimSlashes dir.data = d) (hne : d ≠ [])
    (hp : trimSlashes imgPath.data = d ++ rest)
    (hrest : containsSub d rest = false) :
    image_dest_path sp dir imgPath = image_dest_path_spec sp dir imgPath
    ∧ image_dest_path sp dir imgPath = sp ++ "/" ++ String.mk (trimSlashes rest) := by
  obtain ⟨p0, ps, hdc⟩ : ∃ p0 ps, d = p0 :: ps := by
    cases d with
    | nil => exact absurd rfl hne
    | cons p0 ps => exact ⟨p0, ps, rfl⟩
  have hp0 : p0 ≠ '/' := by
    apply trimSlashes_head_ne dir.data p0 ps
    rw [hd, hdc]
  have hp' : imgPath.data.dropWhile (fun c => c == '/') = d ++ rest := hp
  have hsplit : imgPath.data
      = imgPath.data.takeWhile (fun c => c == '/') ++ (d ++ rest) := by
    have h0 := List.takeWhile_append_dropWhile (p := fun c => c == '/') (l := imgPath.data)
    rw [hp'] at h0
    exact h0.symm
  have hra : removeAll d imgPath.data
      = imgPath.data.takeWhile (fun c => c == '/') ++ rest := by
    calc removeAll d imgPath.data
        = removeAll d (imgPath.data.takeWhile (fun c => c == '/') ++ (d ++ rest)) := by
          rw [← hsplit]
      _ = imgPath.data.takeWhile (fun c => c == '/') ++ removeAll d (d ++ rest) :=
          removeAll_leading d p0 ps hdc hp0 _ (takeWhile_slash_all imgPath.data) _
      _ = imgPath.data.takeWhile (fun c => c == '/') ++ removeAll d rest := by
          rw [removeAll_append_self d rest hne]
      _ = imgPath.data.takeWhile (fun c => c == '/') ++ rest := by
          rw [removeAll_of_not_contains d rest hrest]
  have hcode : image_dest_path sp dir imgPath
      = sp ++ "/" ++ String.mk (trimSlashes rest) := by
    unfold image_dest_path
    rw [hd, hra, trimSlashes_append_slashes rest _ (takeWhile_slash_all imgPath.data)]
  have hspec : image_dest_path_spec sp dir imgPath
      = sp ++ "/" ++ String.mk (trimSlashes rest) := by
    simp only [image_dest_path_spec]
    rw [hd, hp, isPrefixOf_append_self d rest]
    simp only [if_true]
    rw [List.drop_left]
  exact ⟨hcode.trans hspec.symm, hcode⟩

/-- C4 counterexample: with document directory "/7/" (number 7) and
descriptor path "/7/a/7/b.png", the file is staged at <workspace>/a/b.png —
every occurrence of "7/" is removed — while stripping only the directory
prefix would give <workspace>/a/7/b.png. -/
theorem c4_counterexample :
    (RenderableRfd.download_images ⟨RfdContent.Asciidoc (RfdAsciidoc.new "t"), "id"⟩
        ⟨"/w", Except.ok [⟨"/7/a/7/b.png", "x"⟩], fun _ => Except.ok [1],
          Except.ok [], true, 0⟩ 7 ⟨[], []⟩).2.files.map Prod.fst
      = ["/w/rfd-render/id/a/b.png"]
    ∧ image_dest_path_spec "/w/rfd-render/id" "/7/" "/7/a/7/b.png"
      = "/w/rfd-render/id/a/7/b.png" := by
  decide

/-- C4 witness: for the spec's own example — document directory "/7/" and
descriptor path "/7/img/diagram.png" — the code and spec destinations agree
and the file lands at <workspace>/img/diagram.png. -/
theorem c4_witness :
    image_dest_path "/w" "/7/" "/7/img/diagram.png"
      = image_dest_path_spec "/w" "/7/" "/7/img/diagram.png"
    ∧ image_dest_path "/w" "/7/" "/7/img/diagram.png"
      = "/w" ++ "/" ++ String.mk (trimSlashes "img/diagram.png".data) :=
  c4_dest_path "/w" "/7/" "/7/img/diagram.png" "7/".data "img/diagram.png".data
    (by decide) (by decide) (by decide) (by decide)
